import Mathlib

/-!
# Finnexa core — shallow embedding and verification

Shallow embedding of the chunking, retrieval-citation, delta, ratio, trend
and forecast logic of the Finnexa repository, together with theorems that
settle the specification claims against it.

Code embedded here:
* `RAGService._chunk_text`, `retrieve_with_citations` (backend/app/services/rag_service.py)
* `_add_deltas` / `compute_kpis_and_deltas` (notebooks/mda_pipeline.py)
* `FinancialAnalyzer._calculate_liquidity_ratios`, `_calculate_trend`,
  `generate_forecast`, `_prophet_forecast`, `_linear_forecast`
  (backend/app/services/financial_analyzer.py)

Machine floats are modelled exactly: finite values as rationals plus the
IEEE specials `+inf`, `-inf`, `nan` where the code can produce them.
Python string/slice semantics (negative indices, `rfind` bounds, `strip`)
are modelled over `List Char`.
-/

attribute [local semireducible] Rat.mul Rat.sub Rat.add Rat.inv

/-! ## Python primitives used by `_chunk_text` -/

/-- Python whitespace test used by `str.strip()` (ASCII whitespace set). -/
def pyIsSpace (c : Char) : Bool :=
  c = ' ' || c = '\t' || c = '\n' || c = '\r' || c = '\x0b' || c = '\x0c'

/-- Python `str.strip()`: drop whitespace from both ends. -/
def pyStrip (s : List Char) : List Char :=
  ((s.dropWhile pyIsSpace).reverse.dropWhile pyIsSpace).reverse

/-- Normalization of a Python slice index against a string of length `len`:
negative indices count from the end, and the result is clamped to `[0, len]`. -/
def pyNorm (len : Nat) (i : Int) : Nat :=
  if i < 0 then ((len : Int) + i).toNat else min i.toNat len

/-- Python slice `s[a:b]` for arbitrary integer bounds. -/
def pySlice (s : List Char) (a b : Int) : List Char :=
  (s.take (pyNorm s.length b)).drop (pyNorm s.length a)

/-- Python `s.rfind(c, a, b)`: the largest index of `c` inside the
normalized window `[a, b)`, and `-1` when there is none. -/
def pyRfind (s : List Char) (c : Char) (a b : Int) : Int :=
  match ((List.range (pyNorm s.length b)).filter
      (fun i => decide (pyNorm s.length a ≤ i) && decide (s.get? i = some c))).getLast? with
  | some i => (i : Int)
  | none => -1

/-! ## The chunker (`RAGService._chunk_text`)

The Python loop is:

```
while start < len(text):
    end = start + chunk_size
    if end < len(text):
        sentence_end = text.rfind('.', start, end)
        if sentence_end > start + chunk_size // 2:
            end = sentence_end + 1
    chunk = text[start:end].strip()
    if chunk:
        chunks.append(chunk)
    start = end - overlap
    if start >= len(text):
        break
return chunks
```

The loop is modelled with explicit fuel; `none` means the fuel ran out,
i.e. the Python loop has not terminated within that many iterations.
The post-update `break` test coincides with the `while` guard. -/

/-- The window end chosen by one iteration of the chunk loop: `start + chunk_size`,
snapped back to just past the last sentence-terminating `'.'` when that dot
lies beyond the window midpoint. -/
def chunkBodyEnd (text : List Char) (cs : Nat) (start : Int) : Int :=
  let e0 : Int := start + (cs : Int)
  if e0 < (text.length : Int) then
    let se := pyRfind text '.' start e0
    if se > start + ((cs / 2 : Nat) : Int) then se + 1 else e0
  else e0

/-- Fuel-indexed model of the `while` loop of `_chunk_text`. -/
def chunkLoop (text : List Char) (cs ov : Nat) : Nat → Int → Option (List (List Char))
  | 0, _ => none
  | Nat.succ fuel, start =>
    if start < (text.length : Int) then
      let e := chunkBodyEnd text cs start
      let c := pyStrip (pySlice text start e)
      match chunkLoop text cs ov fuel (e - (ov : Int)) with
      | none => none
      | some rest => some (if c = [] then rest else c :: rest)
    else some []

/-- `RAGService._chunk_text(text, chunk_size, overlap)`: texts no longer than
`chunk_size` are returned whole (and untrimmed) as a single chunk; otherwise
the sliding-window loop runs. -/
def chunkText (fuel : Nat) (text : List Char) (cs ov : Nat) : Option (List (List Char)) :=
  if text.length ≤ cs then some [text] else chunkLoop text cs ov fuel 0

example : chunkText 1 [' ', 'a', ' '] 1000 200 = some [[' ', 'a', ' ']] := by decide

example : chunkText 10 ['a', 'b', 'c', 'd', 'e', 'f', 'g', 'h'] 5 2 =
    some [['a', 'b', 'c', 'd', 'e'], ['d', 'e', 'f', 'g', 'h'], ['g', 'h']] := by decide

example : chunkText 3 ['a', 'b', 'c'] 2 2 = none := by decide

example : chunkText 4 ['a', 'b', 'c', '.', 'd', 'e', 'f', 'g'] 5 2 =
    some [['a', 'b', 'c', '.'], ['c', '.', 'd', 'e', 'f'], ['e', 'f', 'g']] := by decide

/-! ## IEEE-style value model for the pandas delta columns

`_add_deltas` computes `g[col].pct_change()` and `g[col].pct_change(periods=4)`
over numpy float64 columns. Finite values are kept exact as rationals; the
specials that numpy division can produce are explicit constructors. -/

/-- A float64 cell value: exact finite rational, `+inf`, `-inf`, or `nan`. -/
inductive PyF where
  | fin : ℚ → PyF
  | pinf : PyF
  | ninf : PyF
  | nan : PyF
deriving DecidableEq, Repr

/-- IEEE division as numpy performs it on float64 (zero is unsigned here,
matching the values actually stored in these dataframes). -/
def PyF.div : PyF → PyF → PyF
  | .nan, _ => .nan
  | _, .nan => .nan
  | .fin a, .fin b =>
    if b = 0 then (if a > 0 then .pinf else if a < 0 then .ninf else .nan)
    else .fin (a / b)
  | .fin _, .pinf => .fin 0
  | .fin _, .ninf => .fin 0
  | .pinf, .fin b => if b < 0 then .ninf else .pinf
  | .ninf, .fin b => if b < 0 then .pinf else .ninf
  | .pinf, .pinf => .nan
  | .pinf, .ninf => .nan
  | .ninf, .pinf => .nan
  | .ninf, .ninf => .nan

/-- IEEE subtraction for the same value model. -/
def PyF.sub : PyF → PyF → PyF
  | .nan, _ => .nan
  | _, .nan => .nan
  | .fin a, .fin b => .fin (a - b)
  | .pinf, .fin _ => .pinf
  | .ninf, .fin _ => .ninf
  | .fin _, .pinf => .ninf
  | .fin _, .ninf => .pinf
  | .pinf, .pinf => .nan
  | .pinf, .ninf => .pinf
  | .ninf, .pinf => .ninf
  | .ninf, .ninf => .nan

/-- Pandas forward fill (`fillna(method='pad')`): each `nan` is replaced by
the most recent non-`nan` value, when one exists. -/
def ffillAux : Option PyF → List PyF → List PyF
  | _, [] => []
  | last, x :: xs =>
    if x = PyF.nan then (last.getD PyF.nan) :: ffillAux last xs
    else x :: ffillAux (some x) xs

/-- Forward fill of a whole column. -/
def ffill (xs : List PyF) : List PyF := ffillAux none xs

/-- Pandas `Series.pct_change(periods=k)` with the default forward fill:
entry `i` is `filled[i] / filled[i-k] - 1`, and `nan` where the shifted
series has no value (`i < k`). This is the exact computation behind the
`*_QoQ_pct` (`k = 1`) and `*_YoY_pct` (`k = 4`) columns of `_add_deltas`. -/
def pctChange (k : Nat) (xs : List PyF) : List PyF :=
  let f := ffill xs
  (List.range xs.length).map (fun i =>
    if i < k then PyF.nan
    else PyF.sub (PyF.div (f.getD i PyF.nan) (f.getD (i - k) PyF.nan)) (PyF.fin 1))

example : pctChange 1 [PyF.fin 100, PyF.fin 110] = [PyF.nan, PyF.fin (1/10)] := by decide
example : pctChange 1 [PyF.fin 100] = [PyF.nan] := by decide
example : pctChange 1 [PyF.fin 0, PyF.fin 5] = [PyF.nan, PyF.pinf] := by decide
example : pctChange 4 [PyF.fin 1, PyF.fin 2, PyF.fin 3, PyF.fin 4, PyF.fin 6] =
    [PyF.nan, PyF.nan, PyF.nan, PyF.nan, PyF.fin 5] := by decide

/-! ## Retrieval citations (`RAGService.retrieve_with_citations`)

Per hit the service computes `relevance_score = 1 - distance` (no clamping
appears in the code) and a content snippet truncated to 200 characters. -/

/-- One raw hit as returned by the vector index query. -/
structure RetrievalHitRaw where
  text : List Char
  documentId : Int
  chunkIndex : Int
  distance : ℚ
deriving DecidableEq, Repr

/-- The citation record built for one hit in `retrieve_with_citations`. -/
structure CitationOut where
  documentId : Int
  chunkIndex : Int
  relevanceScore : ℚ
  content : List Char
deriving DecidableEq, Repr

/-- Citation construction for one hit: `relevance_score = 1 - distance`,
`content = doc[:200] + "..."` when the text exceeds 200 characters. -/
def mkCitation (h : RetrievalHitRaw) : CitationOut :=
  { documentId := h.documentId
    chunkIndex := h.chunkIndex
    relevanceScore := 1 - h.distance
    content := if 200 < h.text.length then h.text.take 200 ++ ['.', '.', '.'] else h.text }

/-- The citation list over the hits of one query, in index order. -/
def buildCitations (hits : List RetrievalHitRaw) : List CitationOut :=
  hits.map mkCitation

example : (mkCitation ⟨['x'], 1, 0, 3/2⟩).relevanceScore = -(1/2) := by decide

/-! ## Liquidity ratios (`FinancialAnalyzer._calculate_liquidity_ratios`)

The Python function reads four keys with `data.get(key, 0)` and only emits
the three liquidity ratios when `current_liabilities > 0`; otherwise the
result dict stays empty. String keys are modelled as enumerations. -/

/-- The financial-statement keys `_calculate_liquidity_ratios` reads. -/
inductive FinDataKey where
  | current_assets
  | current_liabilities
  | inventory
  | cash
deriving DecidableEq, Repr

/-- The ratio names `_calculate_liquidity_ratios` can emit. -/
inductive LiquidityRatioKey where
  | current_ratio
  | quick_ratio
  | cash_ratio
deriving DecidableEq, Repr

/-- Python `data.get(key, 0)` over the snapshot dict. -/
def finGet (data : List (FinDataKey × ℚ)) (k : FinDataKey) : ℚ :=
  ((data.find? (fun p => p.1 == k)).map (fun p => p.2)).getD 0

/-- `_calculate_liquidity_ratios`: all three ratios are emitted exactly when
`current_liabilities > 0`; otherwise the result map has no entries. -/
def calculateLiquidityRatios (data : List (FinDataKey × ℚ)) : List (LiquidityRatioKey × ℚ) :=
  let currentAssets := finGet data FinDataKey.current_assets
  let currentLiabilities := finGet data FinDataKey.current_liabilities
  let inventory := finGet data FinDataKey.inventory
  let cash := finGet data FinDataKey.cash
  if currentLiabilities > 0 then
    [(LiquidityRatioKey.current_ratio, currentAssets / currentLiabilities),
     (LiquidityRatioKey.quick_ratio, (currentAssets - inventory) / currentLiabilities),
     (LiquidityRatioKey.cash_ratio, cash / currentLiabilities)]
  else []

/-- Lookup of one ratio in the result map (`None` = no entry). -/
def ratioLookup (rs : List (LiquidityRatioKey × ℚ)) (k : LiquidityRatioKey) : Option ℚ :=
  (rs.find? (fun p => p.1 == k)).map (fun p => p.2)

example : ratioLookup (calculateLiquidityRatios
    [(FinDataKey.current_assets, 500000), (FinDataKey.current_liabilities, 200000)])
    LiquidityRatioKey.current_ratio = some (5/2) := by decide

example : ratioLookup (calculateLiquidityRatios
    [(FinDataKey.current_assets, 500000), (FinDataKey.current_liabilities, 0)])
    LiquidityRatioKey.current_ratio = none := by decide

/-! ## Trend statistics (`FinancialAnalyzer._calculate_trend`)

`_calculate_trend` runs `scipy.stats.linregress` on `x = arange(n)` inside a
`try`; any exception falls through to the degenerate result
`direction = "unknown"` with all statistics zero. `linregress` raises for an
empty input and when all `x` values are identical — with `x = arange(n)` that
is exactly `n < 2`; for every `n ≥ 2` it computes the ordinary least-squares
fit in closed form (and with `n = 2` uses a special case for the p-value, so
it does not raise either). The p-value and `strength = |r|` fields involve
the t-distribution and a square root and are not referenced by any claim;
`volatility = np.std(residuals)` is represented by its square
`volatilitySq` (`np.std` is the square root of it, and it is zero exactly
when `volatilitySq` is zero). -/

/-- The `direction` strings of the trend result. -/
inductive TrendDirection where
  | increasing
  | decreasing
  | stable
  | unknown
deriving DecidableEq, Repr

/-- The index regressor `x = arange(n)` as exact rationals. -/
def ratIota (n : Nat) : List ℚ := (List.range n).map (fun i : ℕ => (i : ℚ))

/-- `np.mean` over exact rationals. -/
def listMean (l : List ℚ) : ℚ := l.sum / (l.length : ℚ)

/-- The slope/intercept/r² part of `scipy.stats.linregress(arange(n), y)`;
`none` models the `ValueError` raised when `n < 2` (empty input, or all
`x` values identical). -/
structure LinregressResult where
  slope : ℚ
  intercept : ℚ
  rSquared : ℚ
deriving DecidableEq, Repr

/-- Closed-form `linregress` over the index regressor. -/
def linregressIdx (y : List ℚ) : Option LinregressResult :=
  let n := y.length
  if n < 2 then none
  else
    let xs := ratIota n
    let xm := listMean xs
    let ym := listMean y
    let ssxm := listMean (xs.map (fun x => (x - xm) * (x - xm)))
    let ssym := listMean (y.map (fun v => (v - ym) * (v - ym)))
    let ssxym := listMean (List.zipWith (fun x v => (x - xm) * (v - ym)) xs y)
    let slope := ssxym / ssxm
    let intercept := ym - slope * xm
    let r2 := if ssxm = 0 ∨ ssym = 0 then 0 else ssxym * ssxym / (ssxm * ssym)
    some { slope := slope, intercept := intercept, rSquared := r2 }

/-- The trend record produced by `_calculate_trend`. -/
structure TrendOutput where
  direction : TrendDirection
  slope : ℚ
  rSquared : ℚ
  forecast : ℚ
  volatilitySq : ℚ
deriving DecidableEq, Repr

/-- `_calculate_trend`: regression statistics on success, and the degenerate
all-zero `unknown` record when `linregress` raises. -/
def calculateTrend (y : List ℚ) : TrendOutput :=
  match linregressIdx y with
  | none =>
    { direction := TrendDirection.unknown, slope := 0, rSquared := 0
      forecast := 0, volatilitySq := 0 }
  | some r =>
    let n := y.length
    let residuals := List.zipWith (fun x v => v - (r.slope * x + r.intercept)) (ratIota n) y
    let m := listMean residuals
    { direction :=
        if r.slope > 0 then TrendDirection.increasing
        else if r.slope < 0 then TrendDirection.decreasing
        else TrendDirection.stable
      slope := r.slope
      rSquared := r.rSquared
      forecast := r.slope * (n : ℚ) + r.intercept
      volatilitySq := listMean (residuals.map (fun t => (t - m) * (t - m))) }

example : (calculateTrend []).direction = TrendDirection.unknown := by decide
example : (calculateTrend [5]).direction = TrendDirection.unknown := by decide
example : calculateTrend [100, 110] =
    { direction := TrendDirection.increasing, slope := 10, rSquared := 1
      forecast := 120, volatilitySq := 0 } := by decide
example : (calculateTrend [100, 110, 120, 130]).direction = TrendDirection.increasing ∧
    (calculateTrend [100, 110, 120, 130]).rSquared = 1 := by decide
example : (calculateTrend [5, 5, 5]).direction = TrendDirection.stable := by decide

/-! ## Forecast generation (`generate_forecast`, `_prophet_forecast`, `_linear_forecast`)

`generate_forecast(method="prophet")` calls `_prophet_forecast` directly.
When the optional `prophet` package failed to import, the `Prophet(...)`
constructor call raises `NameError`, which the `except` clause turns into
`{"forecast": [], "confidence_intervals": [], "confidence_score": 0.0}`;
there is no fallback call to `_linear_forecast` anywhere on that path.
On success Prophet's numeric predictions are an external capability, taken
here as the abstract list `predictions`, with `confidence_score = 0.9`.

`_linear_forecast` fits `sklearn.LinearRegression` on `x = arange(n)` (the
same closed-form least squares; a constant feature gives slope 0) and
predicts indices `n .. n+periods-1`, with `confidence_score = 0.8`; an empty
input raises inside the `try` and yields the same empty/0.0 dict. The
`confidence_intervals` entries mirror the forecast values offset by
`±1.96·std(residuals)` (a square root) and are not referenced by any claim,
so only the forecast values and the confidence score are carried. -/

/-- The part of the forecast dicts the claims are about. -/
structure ForecastData where
  forecast : List ℚ
  confidenceScore : ℚ
deriving DecidableEq, Repr

/-- `_prophet_forecast`: empty result with confidence `0.0` when the
prophet import failed (the Prophet call raises and is caught); Prophet's own output
`predictions` with confidence `0.9` when it is available and succeeds. -/
def prophetForecast (prophetAvailable : Bool) (predictions : List ℚ) : ForecastData :=
  if prophetAvailable then { forecast := predictions, confidenceScore := 9/10 }
  else { forecast := [], confidenceScore := 0 }

/-- Least-squares slope and intercept on the index regressor, as
`sklearn.LinearRegression` computes them (slope `0` for a constant feature). -/
def olsFitIdx (y : List ℚ) : ℚ × ℚ :=
  let n := y.length
  let xs := ratIota n
  let xm := listMean xs
  let ym := listMean y
  let ssxm := listMean (xs.map (fun x => (x - xm) * (x - xm)))
  let ssxym := listMean (List.zipWith (fun x v => (x - xm) * (v - ym)) xs y)
  let slope := if ssxm = 0 then 0 else ssxym / ssxm
  (slope, ym - slope * xm)

/-- `_linear_forecast`: linear extrapolation over the next `periods` indices
with confidence `0.8`; an empty series raises inside the `try` and becomes
the empty/0.0 result. -/
def linearForecast (data : List ℚ) (periods : Nat) : ForecastData :=
  if data.length = 0 then { forecast := [], confidenceScore := 0 }
  else
    let fit := olsFitIdx data
    { forecast := (List.range periods).map
        (fun j : ℕ => fit.1 * ((data.length : ℚ) + (j : ℚ)) + fit.2)
      confidenceScore := 4/5 }

/-- The forecasting strategies `generate_forecast` dispatches on
(the `method` strings `"prophet"` and `"linear"`; any other string raises
`ValueError` before either strategy runs and is not modelled further). -/
inductive ForecastMethod where
  | prophet
  | linear
deriving DecidableEq, Repr

/-- The response record of `generate_forecast` (`forecast_data` and the
`confidence_score` copied out of the strategy result, which always carries
one, so the `.get(..., 0.85)` default is never used). -/
structure GenForecastOut where
  forecastData : List ℚ
  confidenceScore : ℚ
  periods : Nat
deriving DecidableEq, Repr

/-- `generate_forecast`: dispatch to the requested strategy; no availability
check and no fallback between strategies. -/
def generateForecast (prophetAvailable : Bool) (predictions : List ℚ)
    (data : List ℚ) (periods : Nat) (method : ForecastMethod) : GenForecastOut :=
  let fd :=
    match method with
    | ForecastMethod.prophet => prophetForecast prophetAvailable predictions
    | ForecastMethod.linear => linearForecast data periods
  { forecastData := fd.forecast, confidenceScore := fd.confidenceScore, periods := periods }

example : generateForecast false [7, 8] [1, 2, 3] 12 ForecastMethod.prophet =
    { forecastData := [], confidenceScore := 0, periods := 12 } := by decide
example : generateForecast false [7, 8] [1, 2, 3] 2 ForecastMethod.linear =
    { forecastData := [4, 5], confidenceScore := 4/5, periods := 2 } := by decide
example : generateForecast true [7, 8] [1, 2, 3] 12 ForecastMethod.prophet =
    { forecastData := [7, 8], confidenceScore := 9/10, periods := 12 } := by decide

/-! ## Helper lemmas about the Python primitives -/

theorem pyNorm_le_len (len : Nat) (i : Int) : pyNorm len i ≤ len := by
  simp only [pyNorm]
  split
  · omega
  · omega

theorem pyNorm_sub_le (len : Nat) (a : Int) (d : Nat) :
    pyNorm len (a + (d : Int)) - pyNorm len a ≤ d := by
  simp only [pyNorm]
  split <;> split <;> omega

theorem pyNorm_nonneg_le (len : Nat) (e : Int) (b : Nat) (he : 0 ≤ e)
    (hb : e ≤ (b : Int)) (_hbl : b ≤ len) : pyNorm len e ≤ b := by
  simp only [pyNorm]
  split
  · omega
  · omega

theorem length_pySlice (s : List Char) (a b : Int) :
    (pySlice s a b).length = pyNorm s.length b - pyNorm s.length a := by
  have hb := pyNorm_le_len s.length b
  simp only [pySlice, List.length_drop, List.length_take]
  omega

theorem getLast?_mem_of_eq {α : Type} : ∀ {l : List α} {a : α}, l.getLast? = some a → a ∈ l := by
  intro l
  induction l with
  | nil => intro a h; simp [List.getLast?] at h
  | cons x xs ih =>
    intro a h
    cases xs with
    | nil =>
      simp [List.getLast?] at h
      simp [h]
    | cons y ys =>
      rw [List.getLast?_cons_cons] at h
      exact List.mem_cons_of_mem _ (ih h)

theorem pyRfind_cases (s : List Char) (c : Char) (a b : Int) :
    pyRfind s c a b = -1 ∨
      (0 ≤ pyRfind s c a b ∧ pyRfind s c a b + 1 ≤ (pyNorm s.length b : Int)) := by
  simp only [pyRfind]
  set l := (List.range (pyNorm s.length b)).filter
    (fun i => decide (pyNorm s.length a ≤ i) && decide (s.get? i = some c)) with hl
  cases h : l.getLast? with
  | none => left; rfl
  | some i =>
    right
    have hmem : i ∈ l := getLast?_mem_of_eq h
    rw [hl] at hmem
    have hrange : i ∈ List.range (pyNorm s.length b) := List.mem_of_mem_filter hmem
    have hlt : i < pyNorm s.length b := List.mem_range.mp hrange
    constructor
    · show (0 : Int) ≤ (i : Int)
      exact Int.ofNat_nonneg i
    · show (i : Int) + 1 ≤ (pyNorm s.length b : Int)
      omega

theorem chunkBodyEnd_cases (text : List Char) (cs : Nat) (start : Int) :
    chunkBodyEnd text cs start = start + (cs : Int) ∨
      (0 ≤ chunkBodyEnd text cs start ∧
        chunkBodyEnd text cs start ≤ (pyNorm text.length (start + (cs : Int)) : Int)) := by
  simp only [chunkBodyEnd]
  split
  · rcases pyRfind_cases text '.' start (start + (cs : Int)) with h | ⟨h0, h1⟩
    · split
      · right
        rw [h]
        constructor
        · omega
        · omega
      · left; rfl
    · split
      · right
        constructor
        · omega
        · omega
      · left; rfl
  · left; rfl

theorem length_chunkPiece (text : List Char) (cs : Nat) (start : Int) :
    (pySlice text start (chunkBodyEnd text cs start)).length ≤ cs := by
  rw [length_pySlice]
  rcases chunkBodyEnd_cases text cs start with h | ⟨h0, h1⟩
  · rw [h]
    exact pyNorm_sub_le text.length start cs
  · have hb := pyNorm_le_len text.length (start + (cs : Int))
    have hmono : pyNorm text.length (chunkBodyEnd text cs start) ≤
        pyNorm text.length (start + (cs : Int)) :=
      pyNorm_nonneg_le text.length _ _ h0 h1 hb
    have hsub := pyNorm_sub_le text.length start cs
    omega

theorem length_dropWhile_le' {α : Type} (p : α → Bool) :
    ∀ (l : List α), (l.dropWhile p).length ≤ l.length := by
  intro l
  induction l with
  | nil => simp [List.dropWhile]
  | cons x xs ih =>
    simp only [List.dropWhile]
    split
    · exact Nat.le_succ_of_le ih
    · simp

theorem length_pyStrip_le (s : List Char) : (pyStrip s).length ≤ s.length := by
  simp only [pyStrip, List.length_reverse]
  calc ((s.dropWhile pyIsSpace).reverse.dropWhile pyIsSpace).length
      ≤ (s.dropWhile pyIsSpace).reverse.length := length_dropWhile_le' _ _
    _ = (s.dropWhile pyIsSpace).length := List.length_reverse _
    _ ≤ s.length := length_dropWhile_le' _ _

theorem dropWhile_head_false {α : Type} (p : α → Bool) :
    ∀ (l : List α) (c : α) (t : List α), l.dropWhile p = c :: t → p c = false := by
  intro l
  induction l with
  | nil => intro c t h; simp [List.dropWhile] at h
  | cons x xs ih =>
    intro c t h
    simp only [List.dropWhile] at h
    revert h
    split
    · intro h; exact ih c t h
    · intro h
      cases h
      simp_all

theorem all_reverse_eq {α : Type} (p : α → Bool) :
    ∀ (l : List α), l.reverse.all p = l.all p := by
  intro l
  induction l with
  | nil => rfl
  | cons x xs ih => simp [List.all_append, ih, Bool.and_comm]

theorem pyStrip_all_false (s : List Char) (h : pyStrip s ≠ []) :
    (pyStrip s).all pyIsSpace = false := by
  revert h
  simp only [pyStrip]
  cases hd : (s.dropWhile pyIsSpace).reverse.dropWhile pyIsSpace with
  | nil => intro h; exact absurd rfl h
  | cons a u =>
    intro _
    have hpa : pyIsSpace a = false :=
      dropWhile_head_false pyIsSpace (s.dropWhile pyIsSpace).reverse a u hd
    rw [all_reverse_eq]
    simp [hpa]

theorem chunkLoop_succ_lt (text : List Char) (cs ov n : Nat) (start : Int)
    (hg : start < (text.length : Int)) :
    chunkLoop text cs ov (n + 1) start =
      match chunkLoop text cs ov n (chunkBodyEnd text cs start - (ov : Int)) with
      | none => none
      | some rest =>
        some (if pyStrip (pySlice text start (chunkBodyEnd text cs start)) = [] then rest
              else pyStrip (pySlice text start (chunkBodyEnd text cs start)) :: rest) := by
  rw [chunkLoop, if_pos hg]

theorem chunkLoop_succ_ge (text : List Char) (cs ov n : Nat) (start : Int)
    (hg : ¬ start < (text.length : Int)) :
    chunkLoop text cs ov (n + 1) start = some [] := by
  rw [chunkLoop, if_neg hg]

/-- Every chunk the window loop emits is non-empty, is not whitespace-only,
and is at most `chunk_size` characters long. -/
theorem chunkLoop_chunks_prop :
    ∀ (fuel : Nat) (text : List Char) (cs ov : Nat) (start : Int)
      (chunks : List (List Char)),
      chunkLoop text cs ov fuel start = some chunks →
      ∀ c ∈ chunks, c ≠ [] ∧ c.all pyIsSpace = false ∧ c.length ≤ cs := by
  intro fuel
  induction fuel with
  | zero =>
    intro text cs ov start chunks h
    simp [chunkLoop] at h
  | succ n ih =>
    intro text cs ov start chunks h c hc
    by_cases hg : start < (text.length : Int)
    · rw [chunkLoop_succ_lt text cs ov n start hg] at h
      cases heq : chunkLoop text cs ov n (chunkBodyEnd text cs start - (ov : Int)) with
      | none => rw [heq] at h; exact absurd h (by simp)
      | some rest =>
        rw [heq] at h
        simp only [Option.some.injEq] at h
        have hrest := ih text cs ov _ rest heq
        by_cases hemp : pyStrip (pySlice text start (chunkBodyEnd text cs start)) = []
        · rw [if_pos hemp] at h
          exact hrest c (h ▸ hc)
        · rw [if_neg hemp] at h
          rw [← h] at hc
          rcases List.mem_cons.mp hc with rfl | hmem
          · refine ⟨hemp, pyStrip_all_false _ hemp, ?_⟩
            calc (pyStrip (pySlice text start (chunkBodyEnd text cs start))).length
                ≤ (pySlice text start (chunkBodyEnd text cs start)).length :=
                  length_pyStrip_le _
              _ ≤ cs := length_chunkPiece text cs start
          · exact hrest c hmem
    · rw [chunkLoop_succ_ge text cs ov n start hg] at h
      simp only [Option.some.injEq] at h
      rw [← h] at hc
      simp at hc

theorem pyNorm_lt_of_lt (len : Nat) (start : Int) (hlen : 1 ≤ len)
    (h : start < (len : Int)) : (pyNorm len start : Int) < (len : Int) := by
  simp only [pyNorm]
  split
  · omega
  · omega

/-- One loop iteration with `overlap >= chunk_size` leaves the next window
start strictly below the text length, so the `while` guard stays true. -/
theorem chunkBodyEnd_next_lt (text : List Char) (cs ov : Nat) (start : Int)
    (hov : cs ≤ ov) (hcs : (cs : Int) < (text.length : Int))
    (hg : start < (text.length : Int)) :
    chunkBodyEnd text cs start - (ov : Int) < (text.length : Int) := by
  rcases chunkBodyEnd_cases text cs start with h | ⟨h0, h1⟩
  · omega
  · have hb := pyNorm_le_len text.length (start + (cs : Int))
    by_cases hov1 : 1 ≤ ov
    · omega
    · have hov0 : ov = 0 := by omega
      have hcs0 : cs = 0 := by omega
      subst hov0
      subst hcs0
      have hlen : 1 ≤ text.length := by omega
      have hnorm := pyNorm_lt_of_lt text.length start hlen hg
      simp only [Nat.cast_zero, add_zero] at h1
      omega

/-- With `overlap >= chunk_size` and a text longer than `chunk_size`,
the window loop never terminates: it returns `none` for every fuel. -/
theorem chunkLoop_forever (text : List Char) (cs ov : Nat)
    (hov : cs ≤ ov) (hcs : (cs : Int) < (text.length : Int)) :
    ∀ (fuel : Nat) (start : Int), start < (text.length : Int) →
      chunkLoop text cs ov fuel start = none := by
  intro fuel
  induction fuel with
  | zero => intro start _; rfl
  | succ n ih =>
    intro start hg
    rw [chunkLoop_succ_lt text cs ov n start hg,
      ih _ (chunkBodyEnd_next_lt text cs ov start hov hcs hg)]

/-! ## Claims C2, C3, C9, C10 — the chunker -/

/-- C2: the code has no `InvalidConfig` rejection at all; with
`overlap >= chunk_size` and a text longer than `chunk_size` the
`while` loop of `_chunk_text` never terminates — for every iteration
budget (fuel) the loop is still running. This refutes the claim that the
chunker rejects such parameters instead of looping indefinitely. -/
theorem C2_overlap_ge_chunk_size_loops_forever (text : List Char) (cs ov : Nat)
    (hov : cs ≤ ov) (hlen : cs < text.length) :
    ∀ (fuel : Nat), chunkText fuel text cs ov = none := by
  intro fuel
  unfold chunkText
  rw [if_neg (by omega)]
  exact chunkLoop_forever text cs ov hov (by exact_mod_cast hlen) fuel 0 (by
    have : 0 < text.length := by omega
    exact_mod_cast this)

/-- C2 witness: `_chunk_text("abc", chunk_size=2, overlap=2)` makes no
progress within 5 iterations (nor within any number of iterations). -/
theorem C2_witness : chunkText 5 ['a', 'b', 'c'] 2 2 = none :=
  C2_overlap_ge_chunk_size_loops_forever ['a', 'b', 'c'] 2 2 (by decide) (by decide) 5

/-- C3 counterexample: on the 3-character input `" a "` (shorter than the
chunk size) the chunker returns the input untrimmed, not the trimmed text
`"a"` the claim demands. -/
theorem C3_counterexample :
    chunkText 1 [' ', 'a', ' '] 1000 200 = some [[' ', 'a', ' ']] ∧
      pyStrip [' ', 'a', ' '] = ['a'] ∧ [' ', 'a', ' '] ≠ ['a'] := by
  decide

/-- C3 (amended): for every text with `len(text) <= chunk_size`, the chunker
returns exactly one chunk whose content equals the input text as given
(without whitespace trimming). -/
theorem C3_short_text_single_chunk (fuel : Nat) (text : List Char) (cs ov : Nat)
    (h : text.length ≤ cs) : chunkText fuel text cs ov = some [text] := by
  unfold chunkText
  rw [if_pos h]

/-- C3 witness: the amended statement at the concrete input `" a "`. -/
theorem C3_witness : chunkText 1 [' ', 'a', ' '] 1000 200 = some [[' ', 'a', ' ']] :=
  C3_short_text_single_chunk 1 [' ', 'a', ' '] 1000 200 (by decide)

/-- C9 counterexample: the whitespace-only input `" "` is shorter than the
chunk size, and the chunker emits it as a (whitespace-only) chunk. -/
theorem C9_counterexample :
    chunkText 1 [' '] 1000 200 = some [[' ']] ∧ [' '].all pyIsSpace = true := by
  decide

/-- C9 (amended): on the sliding-window path — texts longer than
`chunk_size` — every emitted chunk is non-empty and not whitespace-only;
but a text no longer than `chunk_size` is returned as-is, so a
whitespace-only (or empty) input is emitted as a chunk on that path. -/
theorem C9_long_text_chunks_not_blank (fuel : Nat) (text : List Char) (cs ov : Nat)
    (chunks : List (List Char)) (hlen : cs < text.length)
    (h : chunkText fuel text cs ov = some chunks) :
    ∀ c ∈ chunks, c ≠ [] ∧ c.all pyIsSpace = false := by
  unfold chunkText at h
  rw [if_neg (by omega)] at h
  intro c hc
  obtain ⟨h1, h2, _⟩ := chunkLoop_chunks_prop fuel text cs ov 0 chunks h c hc
  exact ⟨h1, h2⟩

/-- C9 witness: a concrete run on `"abcdefgh"` with chunk size 5 and
overlap 2; the first emitted chunk is non-empty and not whitespace-only. -/
theorem C9_witness :
    ['a', 'b', 'c', 'd', 'e'] ≠ ([] : List Char) ∧
      ['a', 'b', 'c', 'd', 'e'].all pyIsSpace = false :=
  C9_long_text_chunks_not_blank 10 ['a', 'b', 'c', 'd', 'e', 'f', 'g', 'h'] 5 2
    [['a', 'b', 'c', 'd', 'e'], ['d', 'e', 'f', 'g', 'h'], ['g', 'h']]
    (by decide) (by decide) ['a', 'b', 'c', 'd', 'e'] (by decide)

/-- C10: with `0 < overlap < chunk_size`, every chunk returned by
`_chunk_text` has length at most `chunk_size`: the sentence-boundary
snap-back only ever shortens a window and the final window is capped at the
end of the text. (The bound in fact needs no assumption on `overlap`.) -/
theorem C10_chunk_length_le (fuel : Nat) (text : List Char) (cs ov : Nat)
    (chunks : List (List Char)) (_hov0 : 0 < ov) (_hov : ov < cs)
    (h : chunkText fuel text cs ov = some chunks) :
    ∀ c ∈ chunks, c.length ≤ cs := by
  unfold chunkText at h
  by_cases hl : text.length ≤ cs
  · rw [if_pos hl] at h
    simp only [Option.some.injEq] at h
    intro c hc
    rw [← h] at hc
    simp only [List.mem_singleton] at hc
    rw [hc]
    exact hl
  · rw [if_neg hl] at h
    intro c hc
    exact (chunkLoop_chunks_prop fuel text cs ov 0 chunks h c hc).2.2

/-- C10 witness: the concrete run on `"abcdefgh"` with chunk size 5 and
overlap 2; the second emitted chunk has length at most 5. -/
theorem C10_witness : (['d', 'e', 'f', 'g', 'h'] : List Char).length ≤ 5 :=
  C10_chunk_length_le 10 ['a', 'b', 'c', 'd', 'e', 'f', 'g', 'h'] 5 2
    [['a', 'b', 'c', 'd', 'e'], ['d', 'e', 'f', 'g', 'h'], ['g', 'h']]
    (by decide) (by decide) (by decide) ['d', 'e', 'f', 'g', 'h'] (by decide)

/-! ## Claims C1 and C4 — the pandas delta columns -/

/-- C1 counterexample: on the two-point series `[100, 110]` the stored QoQ
delta is the fraction `0.1`, not the percentage `10.0` the claim states
(`pct_change` does not multiply by 100). -/
theorem C1_counterexample :
    (pctChange 1 [PyF.fin 100, PyF.fin 110]).get? 1 = some (PyF.fin (1/10)) ∧
      (1/10 : ℚ) ≠ 10 := by
  decide

/-- C1 (amended): the QoQ delta stored by `_add_deltas` is the fractional
change `(current - previous) / previous` — not multiplied by 100 — so the
series `[100, 110]` yields `0.1` at the second point; a single-point series
yields `NaN`, which is what pandas treats as null/missing. -/
theorem C1_qoq_is_fractional_change :
    (∀ a b : ℚ, a ≠ 0 →
      pctChange 1 [PyF.fin a, PyF.fin b] = [PyF.nan, PyF.fin ((b - a) / a)]) ∧
    pctChange 1 [PyF.fin 100, PyF.fin 110] = [PyF.nan, PyF.fin (1/10)] ∧
    (∀ v : ℚ, pctChange 1 [PyF.fin v] = [PyF.nan]) := by
  refine ⟨?_, by decide, ?_⟩
  · intro a b ha
    have hdiv : PyF.div (PyF.fin b) (PyF.fin a) = PyF.fin (b / a) := by
      simp [PyF.div, ha]
    have hval : b / a - 1 = (b - a) / a := by
      field_simp
    simp [pctChange, ffill, ffillAux, List.range_succ, hdiv, PyF.sub, hval]
  · intro v
    simp [pctChange, ffill, ffillAux, List.range_succ]

/-- C1 witness: the general fractional formula applied at `[100, 110]`. -/
theorem C1_witness :
    pctChange 1 [PyF.fin 100, PyF.fin 110] = [PyF.nan, PyF.fin ((110 - 100) / 100)] :=
  C1_qoq_is_fractional_change.1 100 110 (by decide)

/-- C4 counterexample: a zero prior-period value does not give a null delta —
`pct_change` on `[0, 5]` stores `+inf` at the second point. -/
theorem C4_counterexample :
    (pctChange 1 [PyF.fin 0, PyF.fin 5]).get? 1 = some PyF.pinf ∧
      PyF.pinf ≠ PyF.nan := by
  decide

/-- C4 (amended): when the prior period does not exist (`i < k`) the delta
field is `NaN` — pandas' null/missing value — but when the prior period's
value is zero the field is `+inf` (positive current), `-inf` (negative
current) or `NaN` (zero current): infinities can be emitted, so the
never-`Inf` invariant does not hold for zero denominators. -/
theorem C4_nan_when_no_prior_but_inf_on_zero_prior :
    (∀ (k i : Nat) (xs : List PyF), i < k → i < xs.length →
      (pctChange k xs).get? i = some PyF.nan) ∧
    (∀ b : ℚ, 0 < b →
      (pctChange 1 [PyF.fin 0, PyF.fin b]).get? 1 = some PyF.pinf) ∧
    (∀ b : ℚ, b < 0 →
      (pctChange 1 [PyF.fin 0, PyF.fin b]).get? 1 = some PyF.ninf) ∧
    (pctChange 1 [PyF.fin 0, PyF.fin 0]).get? 1 = some PyF.nan := by
  refine ⟨?_, ?_, ?_, by decide⟩
  · intro k i xs hik hilen
    simp [pctChange, List.get?_eq_getElem?, List.getElem?_map, List.getElem?_range,
      hilen, hik]
  · intro b hb
    have hb' : ¬ b < 0 := by linarith
    simp [pctChange, ffill, ffillAux, List.range_succ, PyF.div, PyF.sub, hb, hb',
      List.get?_eq_getElem?]
  · intro b hb
    have hb' : ¬ 0 < b := by linarith
    simp [pctChange, ffill, ffillAux, List.range_succ, PyF.div, PyF.sub, hb, hb',
      List.get?_eq_getElem?]

/-- C4 witness: a YoY-style lookback of 4 on a 3-point series has no prior
period at index 2, and the stored field is `NaN` (pandas' null). -/
theorem C4_witness :
    (pctChange 4 [PyF.fin 1, PyF.fin 2, PyF.fin 3]).get? 2 = some PyF.nan :=
  C4_nan_when_no_prior_but_inf_on_zero_prior.1 4 2 [PyF.fin 1, PyF.fin 2, PyF.fin 3]
    (by decide) (by decide)

/-! ## Claims C5–C8 — the financial analyzer -/

/-- C5 counterexample: a two-point series has fewer than 3 points, yet
`scipy.stats.linregress` fits it without raising (it has an explicit
`n == 2` special case), so `_calculate_trend` reports `"increasing"` —
not the degenerate `"unknown"` result the claim states. -/
theorem C5_counterexample :
    ([100, 110] : List ℚ).length < 3 ∧
      (calculateTrend [100, 110]).direction = TrendDirection.increasing ∧
      TrendDirection.increasing ≠ TrendDirection.unknown := by
  decide

/-- C5 (amended): for series with fewer than 2 points (empty or single-point)
`linregress` raises, the exception is caught, and `_calculate_trend` returns
the degenerate result — `direction = "unknown"` with slope, r², forecast and
volatility all zero — without raising; a 2-point series instead gets a real
regression. -/
theorem C5_fewer_than_two_points_unknown (y : List ℚ) (h : y.length < 2) :
    calculateTrend y =
      { direction := TrendDirection.unknown, slope := 0, rSquared := 0
        forecast := 0, volatilitySq := 0 } := by
  have hnone : linregressIdx y = none := by
    unfold linregressIdx
    rw [if_pos h]
  unfold calculateTrend
  rw [hnone]

/-- C5 witness: the degenerate result on the single-point series `[37]`. -/
theorem C5_witness :
    calculateTrend [37] =
      { direction := TrendDirection.unknown, slope := 0, rSquared := 0
        forecast := 0, volatilitySq := 0 } :=
  C5_fewer_than_two_points_unknown [37] (by decide)

/-- C6 counterexample: with Prophet unavailable, `generate_forecast` with the
default `"prophet"` method returns an empty forecast with confidence `0.0` —
not a linear fallback with confidence `0.8`. -/
theorem C6_counterexample :
    (generateForecast false [7, 8] [1, 2, 3] 12 ForecastMethod.prophet).forecastData
        = [] ∧
      (generateForecast false [7, 8] [1, 2, 3] 12 ForecastMethod.prophet).confidenceScore
        = 0 ∧
      (0 : ℚ) ≠ 4/5 := by
  decide

/-- C6 (amended): when Prophet is unavailable, `generate_forecast` with
method `"prophet"` does not raise, but it does not degrade to the linear
strategy either: it returns an empty forecast with `confidence_score = 0.0`.
The linear strategy — used only when explicitly requested — reports
`confidence_score = 0.8` and one forecast value per requested period. -/
theorem C6_prophet_unavailable_is_empty_not_linear :
    (∀ (predictions data : List ℚ) (periods : Nat),
      generateForecast false predictions data periods ForecastMethod.prophet =
        { forecastData := [], confidenceScore := 0, periods := periods }) ∧
    (∀ (avail : Bool) (predictions data : List ℚ) (periods : Nat), data ≠ [] →
      (generateForecast avail predictions data periods
          ForecastMethod.linear).confidenceScore = 4/5 ∧
      (generateForecast avail predictions data periods
          ForecastMethod.linear).forecastData.length = periods) := by
  constructor
  · intro predictions data periods
    rfl
  · intro avail predictions data periods hd
    have hlen : ¬ data.length = 0 := fun hz => hd (List.length_eq_zero.mp hz)
    constructor
    · simp [generateForecast, linearForecast, hlen]
    · have hfd : (generateForecast avail predictions data periods
          ForecastMethod.linear).forecastData =
            (List.range periods).map
              (fun j : ℕ => (olsFitIdx data).1 * ((data.length : ℚ) + (j : ℚ)) +
                (olsFitIdx data).2) := by
        show (linearForecast data periods).forecast = _
        unfold linearForecast
        rw [if_neg hlen]
      rw [hfd, List.length_map, List.length_range]

/-- C6 witness: both parts at concrete inputs. -/
theorem C6_witness :
    generateForecast false [7] [1, 2] 3 ForecastMethod.prophet =
        { forecastData := [], confidenceScore := 0, periods := 3 } ∧
      (generateForecast true [7] [1, 2] 3 ForecastMethod.linear).confidenceScore = 4/5 ∧
      (generateForecast true [7] [1, 2] 3 ForecastMethod.linear).forecastData.length = 3 :=
  ⟨C6_prophet_unavailable_is_empty_not_linear.1 [7] [1, 2] 3,
    (C6_prophet_unavailable_is_empty_not_linear.2 true [7] [1, 2] 3 (by decide)).1,
    (C6_prophet_unavailable_is_empty_not_linear.2 true [7] [1, 2] 3 (by decide)).2⟩

/-- C7 counterexample: a hit at distance `1.5` (cosine distances range up to
2) gets `relevance_score = -0.5`, outside `[0, 1]` — the code never clamps. -/
theorem C7_counterexample :
    (buildCitations [⟨['x'], 1, 0, 3/2⟩]).map CitationOut.relevanceScore = [-(1/2)] ∧
      ¬ (0 ≤ (-(1/2) : ℚ)) := by
  decide

/-- C7 (amended): every citation's `relevance_score` equals `1 - distance`
with no clamping, so it lies in `[0, 1]` exactly when the reported distance
does; distances outside `[0, 1]` produce scores outside `[0, 1]`. -/
theorem C7_relevance_is_one_minus_distance_unclamped :
    (∀ hits : List RetrievalHitRaw,
      (buildCitations hits).map CitationOut.relevanceScore =
        hits.map (fun h => 1 - h.distance)) ∧
    (∀ h : RetrievalHitRaw, 0 ≤ h.distance → h.distance ≤ 1 →
      0 ≤ (mkCitation h).relevanceScore ∧ (mkCitation h).relevanceScore ≤ 1) := by
  constructor
  · intro hits
    simp [buildCitations, mkCitation]
  · intro h h0 h1
    constructor
    · simp only [mkCitation]
      linarith
    · simp only [mkCitation]
      linarith

/-- C7 witness: a hit at distance `1/2` scores `1/2`, inside `[0, 1]`. -/
theorem C7_witness :
    0 ≤ (mkCitation ⟨['x'], 1, 0, 1/2⟩).relevanceScore ∧
      (mkCitation ⟨['x'], 1, 0, 1/2⟩).relevanceScore ≤ 1 :=
  C7_relevance_is_one_minus_distance_unclamped.2 ⟨['x'], 1, 0, 1/2⟩
    (by decide) (by decide)

/-- C8: on `{current_assets: 500000, current_liabilities: 200000}` the
liquidity computation yields `current_ratio = 2.5`; with zero liabilities the
guard `current_liabilities > 0` fails and the result map has no
`current_ratio` entry at all (no `Inf`/`NaN` value is ever built). -/
theorem C8_current_ratio_value_and_omission :
    ratioLookup (calculateLiquidityRatios
        [(FinDataKey.current_assets, 500000), (FinDataKey.current_liabilities, 200000)])
        LiquidityRatioKey.current_ratio = some (5/2) ∧
      ratioLookup (calculateLiquidityRatios
        [(FinDataKey.current_assets, 500000), (FinDataKey.current_liabilities, 0)])
        LiquidityRatioKey.current_ratio = none := by
  decide
